import Mathlib

/-!
Verification of the rag-demo repository's natural-language specification
against a shallow embedding of its Python sources.

The embedding covers:
* the synthesis-stage answer cleanup and JSON decoding in
  src/flare_ai_rag/api/routes/chat.py (handle_rag_pipeline, chat endpoint,
  get_semantic_route, route_message);
* the Qdrant collection generation in
  src/flare_ai_rag/retriever/qdrant_collection.py (collection_exists,
  generate_collection);
* the chain watcher's polling loop in
  src/flare_ai_rag/main_multiple_models_EventListener.py (start, the
  processed_request_ids deduplication set, and the per-model dispatch of
  process_text).

Python strings are modelled as List Char; machine-level details (event loops,
sockets, the hosted LLM and the vector store) appear as explicit oracle
parameters, since the repository delegates those entirely to external
services.
-/

namespace RagDemo

/-! ### Characters that the repository's token scanner treats specially -/

/-- Single-quote character (U+0027), written via its code point. -/
def squote : Char := Char.ofNat 39

/-- Double-quote character (U+0022), written via its code point. -/
def dquote : Char := Char.ofNat 34

/-- Backtick character (U+0060), written via its code point. -/
def btick : Char := Char.ofNat 96

/-- Opening curly brace character (U+007B). -/
def lbrace : Char := Char.ofNat 123

/-- Closing curly brace character (U+007D). -/
def rbrace : Char := Char.ofNat 125

/-! ### Python string primitives used by chat.py -/

/-- Whitespace characters removed by Python's str.strip() (ASCII range):
space, tab, newline, carriage return, vertical tab, form feed. -/
def isPySpace (c : Char) : Bool :=
  c = ' ' || c = '\t' || c = '\n' || c = '\r' || c = Char.ofNat 11 || c = Char.ofNat 12

/-- Model of Python str.lstrip(). -/
def lstrip (l : List Char) : List Char := l.dropWhile isPySpace

/-- Model of Python str.rstrip(). -/
def rstrip (l : List Char) : List Char := (l.reverse.dropWhile isPySpace).reverse

/-- Model of Python str.strip(). -/
def pyStrip (l : List Char) : List Char := rstrip (lstrip l)

/-- Model of Python str.replace(a, b) for single characters a, b. -/
def replaceChar (a b : Char) (l : List Char) : List Char :=
  l.map (fun c => if c = a then b else c)

/-- Model of Python answer[answer.find(chr(10)) + 1 :]: everything after the
first newline; the whole string when there is none (find returns -1). -/
def dropThroughNewline (l : List Char) : List Char :=
  match l.dropWhile (fun c => !(c = '\n')) with
  | [] => l
  | _ :: rest => rest

/-- Model of the Python slice s[:-3]: all characters but the last three
(empty when the string has at most three characters). -/
def dropLast3 (l : List Char) : List Char := l.dropLast.dropLast.dropLast

/-- Leading code-fence marker checked by chat.py line 183. -/
def fenceJson : List Char := "```json".data

/-- Trailing code-fence marker checked by chat.py line 186. -/
def fenceClose : List Char := "```".data

/-- Model of the answer cleanup in handle_rag_pipeline
(chat.py lines 182-192): if the answer starts with a ```json fence, drop the
first line, drop a trailing ``` fence (after stripping) together with
stripping, and replace newlines by spaces; in all cases replace single quotes
by double quotes and strip surrounding whitespace. -/
def cleanupAnswer (answer : List Char) : List Char :=
  let answer_raw :=
    if fenceJson.isPrefixOf answer then
      let a1 := dropThroughNewline answer
      let a2 := if fenceClose.isSuffixOf (pyStrip a1) then dropLast3 (pyStrip a1) else a1
      replaceChar '\n' ' ' a2
    else answer
  pyStrip (replaceChar squote dquote answer_raw)

/-- Wrapping of a reply body in a ```json code fence, as described by the
spec's "a reply wrapped in triple backticks". -/
def fenceWrap (body : List Char) : List Char :=
  "```json\n".data ++ body ++ "\n```".data

/-! ### JSON values and a model of Python json.loads

Model of Python's strict json.loads restricted to the fragment this
repository's replies exercise: null, true, false, double-quoted strings with
single-character escapes, integer numerals, arrays and objects.  Like
Python's strict decoder it rejects trailing commas, raw control characters
inside strings, leading zeros, and trailing garbage after the top-level
value.  Unicode escape sequences and non-integer numbers are outside the
modelled fragment (the decoder rejects them; no claim below exercises them).
-/

/-- JSON values produced by the decoder model. -/
inductive Json where
  | jnull : Json
  | jbool : Bool → Json
  | jint : Int → Json
  | jstr : List Char → Json
  | jarr : List Json → Json
  | jobj : List (List Char × Json) → Json

/-- Whitespace skipped between JSON tokens (json.decoder WHITESPACE). -/
def isJsonWs (c : Char) : Bool :=
  c = ' ' || c = '\t' || c = '\n' || c = '\r'

/-- Skipping of inter-token whitespace. -/
def skipWs (l : List Char) : List Char := l.dropWhile isJsonWs

/-- Single-character string escapes accepted by json.loads (BACKSLASH table);
unicode escapes are outside the modelled fragment. -/
def escChar (c : Char) : Option Char :=
  if c = dquote then some dquote
  else if c = '\\' then some '\\'
  else if c = '/' then some '/'
  else if c = 'b' then some (Char.ofNat 8)
  else if c = 'f' then some (Char.ofNat 12)
  else if c = 'n' then some '\n'
  else if c = 'r' then some '\r'
  else if c = 't' then some '\t'
  else none

/-- Parsing of a JSON string body after the opening double quote; returns
the decoded characters and the remaining input.  Raw control characters
(code points below 32) are rejected, as in Python's strict mode. -/
def parseStringBody : List Char → Option (List Char × List Char)
  | [] => none
  | c :: rest =>
    if c = dquote then some ([], rest)
    else if c = '\\' then
      match rest with
      | [] => none
      | e :: rest2 =>
        match escChar e, parseStringBody rest2 with
        | some d, some (cs, r) => some (d :: cs, r)
        | _, _ => none
    else if c.toNat < 32 then none
    else
      match parseStringBody rest with
      | some (cs, r) => some (c :: cs, r)
      | none => none

/-- Numeric value of a run of decimal digits. -/
def digitsToNat (l : List Char) : Nat :=
  l.foldl (fun n c => n * 10 + (c.toNat - 48)) 0

/-- Parsing of an unsigned integer numeral: digits with no leading zero; a
following fraction or exponent marker (non-integer number) is outside the
modelled fragment and rejected. -/
def parseIntCore (s : List Char) : Option (Int × List Char) :=
  let ds := s.takeWhile Char.isDigit
  let rest := s.dropWhile Char.isDigit
  match ds with
  | [] => none
  | d :: ds' =>
    if d = '0' && ds' ≠ [] then none
    else
      match rest with
      | [] => some ((digitsToNat ds : Int), rest)
      | c :: _ =>
        if c = '.' || c = 'e' || c = 'E' then none
        else some ((digitsToNat ds : Int), rest)

/-- Parsing of an integer numeral: optional minus sign, then the unsigned
numeral. -/
def parseIntToken (l : List Char) : Option (Int × List Char) :=
  match l with
  | [] => none
  | c :: rest =>
    if c = '-' then
      match parseIntCore rest with
      | some (n, r) => some (-n, r)
      | none => none
    else parseIntCore l

mutual

/-- Parsing of one JSON value from the input (fuel-indexed to make the
recursion structural); mirrors json.scanner's py_make_scanner dispatch. -/
def parseValue : Nat → List Char → Option (Json × List Char)
  | 0, _ => none
  | Nat.succ fuel, l =>
    match skipWs l with
    | [] => none
    | c :: rest =>
      if c = dquote then
        match parseStringBody rest with
        | some (cs, r) => some (Json.jstr cs, r)
        | none => none
      else if c = lbrace then
        match skipWs rest with
        | [] => none
        | c2 :: r2 =>
          if c2 = rbrace then some (Json.jobj [], r2)
          else
            match parseObjectTail fuel (c2 :: r2) with
            | some (kvs, r3) => some (Json.jobj kvs, r3)
            | none => none
      else if c = '[' then
        match skipWs rest with
        | [] => none
        | c2 :: r2 =>
          if c2 = ']' then some (Json.jarr [], r2)
          else
            match parseArrayTail fuel (c2 :: r2) with
            | some (vs, r3) => some (Json.jarr vs, r3)
            | none => none
      else
        match c :: rest with
        | 'n' :: 'u' :: 'l' :: 'l' :: r => some (Json.jnull, r)
        | 't' :: 'r' :: 'u' :: 'e' :: r => some (Json.jbool true, r)
        | 'f' :: 'a' :: 'l' :: 's' :: 'e' :: r => some (Json.jbool false, r)
        | s =>
          match parseIntToken s with
          | some (n, r) => some (Json.jint n, r)
          | none => none

/-- Parsing of the elements of a non-empty JSON array (after the opening
bracket); a comma must be followed by another value, so trailing commas are
rejected as in Python. -/
def parseArrayTail : Nat → List Char → Option (List Json × List Char)
  | 0, _ => none
  | Nat.succ fuel, l =>
    match parseValue fuel l with
    | none => none
    | some (v, r) =>
      match skipWs r with
      | [] => none
      | c :: r2 =>
        if c = ',' then
          match parseArrayTail fuel r2 with
          | some (vs, r3) => some (v :: vs, r3)
          | none => none
        else if c = ']' then some ([v], r2)
        else none

/-- Parsing of the members of a non-empty JSON object (after the opening
brace); keys must be double-quoted strings and a comma must be followed by
another member, so trailing commas are rejected as in Python. -/
def parseObjectTail : Nat → List Char → Option (List (List Char × Json) × List Char)
  | 0, _ => none
  | Nat.succ fuel, l =>
    match skipWs l with
    | [] => none
    | c :: r =>
      if c = dquote then
        match parseStringBody r with
        | none => none
        | some (key, r2) =>
          match skipWs r2 with
          | [] => none
          | c2 :: r3 =>
            if c2 = ':' then
              match parseValue fuel r3 with
              | none => none
              | some (v, r4) =>
                match skipWs r4 with
                | [] => none
                | c3 :: r5 =>
                  if c3 = ',' then
                    match parseObjectTail fuel r5 with
                    | some (kvs, r6) => some ((key, v) :: kvs, r6)
                    | none => none
                  else if c3 = rbrace then some ([(key, v)], r5)
                  else none
            else none
      else none

end

/-- Model of Python json.loads on the fragment described above: parse one
value and require only whitespace to remain (Python raises "Extra data"
otherwise); none models a raised json.JSONDecodeError. -/
def jsonLoads (l : List Char) : Option Json :=
  match parseValue (l.length + 1) l with
  | some (j, rest) => if skipWs rest = [] then some j else none
  | none => none

/-! ### Exceptions

Python exceptions surfacing in the embedded code paths.  Their str() text is
what the HTTP handler reports as the error detail. -/

/-- Exceptions raised by the embedded code paths. -/
inductive PyExc where
  | jsonDecodeError : PyExc
  | valueError : List Char → PyExc
  | keyError : List Char → PyExc
  | genericError : List Char → PyExc
deriving DecidableEq

/-- Model of Python str(e) for the exceptions above; for
json.JSONDecodeError the message text is abstracted to its fixed head. -/
def pyExcText : PyExc → List Char
  | PyExc.jsonDecodeError => "Expecting value".data
  | PyExc.valueError s => s
  | PyExc.keyError k => squote :: k ++ [squote]
  | PyExc.genericError s => s

/-! ### Classification labels and retrieval -/

/-- Label for checkable claims, from RouterConfig.load (router/config.py,
fact_check_option) and the comparison in chat.py line 173. -/
def FACT_CHECK : List Char := "FACT_CHECK".data

/-- Label for out-of-scope queries, from RouterConfig.load
(not_relevant_option) and the static_responses table in chat.py line 198. -/
def NOT_RELEVANT : List Char := "NOT_RELEVANT".data

/-- Retrieved document: payload text plus the vector store's similarity
score (its numeric value is opaque to the pipeline, so it is left abstract
as an integer rank). -/
structure RetrievedDoc where
  text : List Char
  score : Int
deriving DecidableEq

/-- Modelled from the spec: QdrantRetriever.semantic_search is not among the
provided sources (only its caller in chat.py is).  Per the spec, retrieval
"given text and a result count k, returns up to k (document, score) pairs
ranked by the vector store's internal similarity metric"; the store's ranked
hit list is an oracle input and the stage truncates it to the first k. -/
def semanticSearch (rankedHits : List RetrievedDoc) (k : Nat) : List RetrievedDoc :=
  rankedHits.take k

/-! ### The chat pipeline of chat.py -/

/-- Oracle inputs of one chat request: the replies of the external services
for this request.  classification is the reply of
query_router.route_query; rankedHits the vector store's ranked result list;
generateResponse the responder's reply for the message and the retrieved
documents; attestationText and conversationText the replies of the two dead
handlers. -/
structure PipelineEnv where
  classification : List Char
  rankedHits : List RetrievedDoc
  generateResponse : List Char → List RetrievedDoc → List Char
  attestationText : List Char
  conversationText : List Char

/-- Response dictionary shape of the chat handlers: classification is
optional because handle_attestation and handle_conversation omit the key. -/
structure RagResponse where
  classification : Option (List Char)
  response : List Char
  response_json : Option Json

/-- Model of ChatRouter.handle_rag_pipeline (chat.py lines 156-209): classify
the query; on FACT_CHECK retrieve the top five documents, generate an
answer, clean it up and decode it as JSON (a decode failure raises); on
NOT_RELEVANT return the static response N/A; otherwise raise
ValueError(classification). -/
def handleRagPipeline (env : PipelineEnv) (message : List Char) :
    Except PyExc RagResponse :=
  let classification := env.classification
  if classification = FACT_CHECK then
    let retrieved_docs := semanticSearch env.rankedHits 5
    let answer := env.generateResponse message retrieved_docs
    let answer_raw := cleanupAnswer answer
    match jsonLoads answer_raw with
    | some j => Except.ok ⟨some classification, answer, some j⟩
    | none => Except.error PyExc.jsonDecodeError
  else if classification = NOT_RELEVANT then
    Except.ok ⟨some classification, "N/A".data, none⟩
  else
    Except.error (PyExc.valueError classification)

/-- Semantic routes referenced by chat.py (the SemanticRouterResponse
enumeration members used there). -/
inductive SemanticRouterResponse where
  | RAG_ROUTER : SemanticRouterResponse
  | REQUEST_ATTESTATION : SemanticRouterResponse
  | CONVERSATIONAL : SemanticRouterResponse
deriving DecidableEq

/-- Oracle inputs of get_semantic_route: the prompt formatting step, the
text-generation call, and the SemanticRouterResponse enum construction from
the reply text; each may raise. -/
structure RouterEnv where
  formatPrompt : Except PyExc (List Char)
  generate : List Char → Except PyExc (List Char)
  parseRoute : List Char → Except PyExc SemanticRouterResponse

/-- Body of the try block of get_semantic_route (chat.py lines 120-127). -/
def getSemanticRouteAttempt (renv : RouterEnv) :
    Except PyExc SemanticRouterResponse := do
  let prompt ← renv.formatPrompt
  let text ← renv.generate prompt
  renv.parseRoute text

/-- Model of ChatRouter.get_semantic_route (chat.py lines 110-130): run the
try block; on any exception return the CONVERSATIONAL default. -/
def getSemanticRoute (renv : RouterEnv) : SemanticRouterResponse :=
  match getSemanticRouteAttempt renv with
  | Except.ok route => route
  | Except.error _ => SemanticRouterResponse.CONVERSATIONAL

/-- Handler tags held by the handlers dictionary of route_message. -/
inductive HandlerTag where
  | ragPipeline : HandlerTag
  | handlesAttestation : HandlerTag
  | handlesConversation : HandlerTag
deriving DecidableEq

/-- Model of the handlers dictionary built in route_message
(chat.py lines 145-149). -/
def handlersLookup : SemanticRouterResponse → Option HandlerTag
  | SemanticRouterResponse.RAG_ROUTER => some HandlerTag.ragPipeline
  | SemanticRouterResponse.REQUEST_ATTESTATION => some HandlerTag.handlesAttestation
  | SemanticRouterResponse.CONVERSATIONAL => some HandlerTag.handlesConversation

/-- Model of ChatRouter.handle_attestation (chat.py lines 211-224): returns
a response dictionary without a classification key. -/
def handleAttestation (env : PipelineEnv) : Except PyExc RagResponse :=
  Except.ok ⟨none, env.attestationText, none⟩

/-- Model of ChatRouter.handle_conversation (chat.py lines 226-237): returns
a response dictionary without a classification key. -/
def handleConversation (env : PipelineEnv) (_message : List Char) :
    Except PyExc RagResponse :=
  Except.ok ⟨none, env.conversationText, none⟩

/-- Model of ChatRouter.route_message (chat.py lines 132-154): the handler
is looked up at the fixed key RAG_ROUTER, ignoring the route argument
("we don't really need the others"); the unsupported-route return is dead
code kept for faithfulness. -/
def routeMessage (env : PipelineEnv) (_route : SemanticRouterResponse)
    (message : List Char) : Except PyExc RagResponse :=
  match handlersLookup SemanticRouterResponse.RAG_ROUTER with
  | none => Except.ok ⟨none, "Unsupported route".data, none⟩
  | some HandlerTag.ragPipeline => handleRagPipeline env message
  | some HandlerTag.handlesAttestation => handleAttestation env
  | some HandlerTag.handlesConversation => handleConversation env message

/-- HTTP outcome of the chat endpoint: a JSON success response, or an
HTTPException with a status code and a detail string. -/
inductive HttpResult where
  | success : RagResponse → HttpResult
  | httpError : Nat → List Char → HttpResult

/-- Model of the chat endpoint (chat.py lines 76-103): route the message,
post-process a FACT_CHECK response with str() (the identity on strings),
and convert any escaped exception into HTTPException(500, str(e)); the
classification lookup msg[chr(34) ++ classification ++ chr(34)] raises
KeyError when the key is absent, which the same except block converts. -/
def chatEndpoint (renv : RouterEnv) (env : PipelineEnv) (message : List Char) :
    HttpResult :=
  let route := getSemanticRoute renv
  match routeMessage env route message with
  | Except.error e => HttpResult.httpError 500 (pyExcText e)
  | Except.ok msg =>
    match msg.classification with
    | none => HttpResult.httpError 500 (pyExcText (PyExc.keyError "classification".data))
    | some c =>
      let msg2 := if c = FACT_CHECK then { msg with response := msg.response } else msg
      HttpResult.success msg2

/-! ### Collection generation of retriever/qdrant_collection.py -/

/-- Content cell of an input dataframe row: a text string, or any other
pandas value (NaN, a float, ...) for which isinstance(content, str) is
false. -/
inductive Cell where
  | text : List Char → Cell
  | nonText : Cell
deriving DecidableEq

/-- Row of the documents dataframe, with the columns produced by
download_covid.py / download_pubmed.py that generate_collection reads
(file_name, meta_data, content). -/
structure DocRow where
  file_name : List Char
  meta_data : List Char
  content : Cell
deriving DecidableEq

/-- Outcome of one embed_content call, as distinguished by the except
clauses of generate_collection: success, an InvalidArgument carrying the
payload-size message, any other InvalidArgument, or any other exception. -/
inductive EmbedOutcome where
  | ok : List Int → EmbedOutcome
  | invalidArgumentPayloadTooLarge : EmbedOutcome
  | invalidArgumentOther : EmbedOutcome
  | otherException : EmbedOutcome
deriving DecidableEq

/-- PointStruct built for one inserted document (qdrant_collection.py lines
104-115). -/
structure PointRecord where
  id : Nat
  vector : List Int
  filename : List Char
  metadata : List Char
  text : List Char
deriving DecidableEq

/-- Model of the row loop of generate_collection (qdrant_collection.py lines
56-115), with idx the 1-based enumerate counter: stop when idx reaches 200;
skip rows whose content is not a string; skip rows whose embedding call
fails with the payload-size InvalidArgument or a generic exception.  In the
remaining InvalidArgument branch the log call reads row[chr(34) ++ Filename
++ chr(34)], a column absent from the dataframe schema
(file_name, meta_data, content, last_updated), so that branch raises an
uncaught KeyError inside the except handler. -/
def collectPoints (embed : DocRow → EmbedOutcome) :
    Nat → List DocRow → Except PyExc (List PointRecord)
  | _, [] => Except.ok []
  | idx, row :: rest =>
    if 200 ≤ idx then Except.ok []
    else
      match row.content with
      | Cell.nonText => collectPoints embed (idx + 1) rest
      | Cell.text content =>
        match embed row with
        | EmbedOutcome.ok v =>
          match collectPoints embed (idx + 1) rest with
          | Except.ok pts =>
            Except.ok (⟨idx, v, row.file_name, row.meta_data, content⟩ :: pts)
          | Except.error e => Except.error e
        | EmbedOutcome.invalidArgumentPayloadTooLarge =>
          collectPoints embed (idx + 1) rest
        | EmbedOutcome.invalidArgumentOther =>
          Except.error (PyExc.keyError "Filename".data)
        | EmbedOutcome.otherException =>
          collectPoints embed (idx + 1) rest

/-- Model of collection_exists (qdrant_collection.py lines 26-34):
pointsCount is the existing collection's points_count, or none when
get_collection raises UnexpectedResponse; the check returns whether the
collection holds more than 150 points. -/
def collectionExistsCheck (pointsCount : Option Nat) : Bool :=
  match pointsCount with
  | some n => decide (150 < n)
  | none => false

/-- Model of generate_collection (qdrant_collection.py lines 36-128),
returning the list of points upserted into the store: nothing when the
existing collection already holds more than 150 points, otherwise the
points collected by the row loop starting at index 1 (the final upsert is
issued only for a non-empty list, inserting exactly these points either
way). -/
def generateCollection (pointsCount : Option Nat) (embed : DocRow → EmbedOutcome)
    (rows : List DocRow) : Except PyExc (List PointRecord) :=
  if collectionExistsCheck pointsCount then Except.ok []
  else collectPoints embed 1 rows

/-- Number of documents actually inserted: the collected points on success,
none when the loop raised (the upsert is never reached). -/
def insertedCount : Except PyExc (List PointRecord) → Nat
  | Except.ok pts => pts.length
  | Except.error _ => 0

/-! ### The chain watcher of main_multiple_models_EventListener.py -/

/-- Model identifiers of the MODELS list (line 26). -/
def MODELS : List String :=
  ["gemini-1.5-flash", "gemini-2.0-flash-lite", "gemini-1.5-flash-8b"]

/-- Keys of the account_addresses dictionary (lines 154-158). -/
def accountAddressKeys : List String :=
  ["gemini-1.5-flash", "gemini-2.0-flash-lite", "gemini-1.5-flash-8b"]

/-- Keys of the private_keys dictionary (lines 160-164). -/
def privateKeyKeys : List String :=
  ["gemini-1.5-flash", "gemini-2.0-flash-lite", "gemini-1.5-flash-8b"]

/-- Models registered as providers by the setup loop (lines 175-190): those
MODELS present in both dictionaries, in iteration order. -/
def registeredModels : List String :=
  MODELS.filter (fun m => accountAddressKeys.contains m && privateKeyKeys.contains m)

/-- RequestSubmitted event log entry: log.args.requestId and log.args.text. -/
structure ChainEvent where
  requestId : Nat
  text : List Char
deriving DecidableEq

/-- Dispatch performed for one event that passes the deduplication guard:
the inner loop over providers issues one process_text call (a fact-check
plus transaction submission) per registered model, recorded here as the
list of model names called. -/
structure DispatchGroup where
  requestId : Nat
  text : List Char
  calls : List String
deriving DecidableEq

/-- Model of the inner event loop of start() (lines 228-235) over the logs
of one polling iteration: skip events whose requestId is already in
processed_request_ids, otherwise add it to the set and dispatch one
process_text call per registered provider.  The state is the
processed_request_ids set, modelled as the list of ids added so far. -/
def processLogs (providers : List String) :
    List ChainEvent → List Nat → List Nat × List DispatchGroup
  | [], st => (st, [])
  | e :: rest, st =>
    if e.requestId ∈ st then processLogs providers rest st
    else
      let result := processLogs providers rest (e.requestId :: st)
      (result.1, ⟨e.requestId, e.text, providers⟩ :: result.2)

/-- Model of one run of the polling loop of start() (lines 224-236): a run
is a sequence of polling iterations, each fetching a list of event logs; the
processed_request_ids set persists across iterations of the run (it is a
module-level set, initialised empty at process start and never pruned). -/
def runWatcher (providers : List String) :
    List (List ChainEvent) → List Nat → List Nat × List DispatchGroup
  | [], st => (st, [])
  | logs :: iters, st =>
    let step := processLogs providers logs st
    let rest := runWatcher providers iters step.1
    (rest.1, step.2 ++ rest.2)

/-- Individual process_text calls of a run, tagged (model, requestId). -/
def allCalls (groups : List DispatchGroup) : List (String × Nat) :=
  groups.flatMap (fun g => g.calls.map (fun m => (m, g.requestId)))

/-! ### Concrete sample inputs used by witnesses and counterexamples -/

/-- Router oracle whose calls all succeed, routing to the RAG pipeline. -/
def okRouterEnv : RouterEnv :=
  ⟨Except.ok [], fun _ => Except.ok [], fun _ => Except.ok SemanticRouterResponse.RAG_ROUTER⟩

/-- Router oracle whose prompt-formatting step raises. -/
def failingRouterEnv : RouterEnv :=
  ⟨Except.error (PyExc.genericError "routing failed".data),
   fun _ => Except.ok [], fun _ => Except.ok SemanticRouterResponse.RAG_ROUTER⟩

/-- Pipeline oracle for a message the router classifies NOT_RELEVANT. -/
def notRelevantEnv : PipelineEnv :=
  ⟨NOT_RELEVANT, [], fun _ _ => [], [], []⟩

/-- Pipeline oracle for a FACT_CHECK message with an empty retrieval result
and a model reply that is not decodable JSON. -/
def emptyRetrievalEnv : PipelineEnv :=
  ⟨FACT_CHECK, [], fun _ _ => "hello".data, [], []⟩

/-- Embedding oracle that always fails with a generic exception. -/
def embedNone : DocRow → EmbedOutcome := fun _ => EmbedOutcome.otherException

/-- Document row whose content cell is not a text string. -/
def nonTextRow : DocRow := ⟨"doc1".data, "meta".data, Cell.nonText⟩

/-- Well-formed multi-line JSON body used to witness the fenced/unfenced
decode equivalence. -/
def multilineBody : List Char := "\x7b\"a\": 1,\n \"b\": 2\x7d".data

/-- Fenced synthesis reply carrying a trailing comma inside the JSON
object. -/
def trailingCommaFenced : List Char := "```json\n\x7b\"a\": 1,\x7d\n```".data

/-- Unfenced equivalent of the same reply. -/
def trailingCommaBody : List Char := "\x7b\"a\": 1,\x7d".data

/-! ### Theorems -/

/-- Helper: every successful result of handle_rag_pipeline carries one of
the two router labels. -/
theorem handleRagPipeline_ok_label (env : PipelineEnv) (message : List Char)
    (r : RagResponse) (h : handleRagPipeline env message = Except.ok r) :
    r.classification = some FACT_CHECK ∨ r.classification = some NOT_RELEVANT := by
  unfold handleRagPipeline at h
  simp only [] at h
  by_cases hfc : env.classification = FACT_CHECK
  · rw [if_pos hfc] at h
    cases hj : jsonLoads (cleanupAnswer (env.generateResponse message
        (semanticSearch env.rankedHits 5))) with
    | none => rw [hj] at h; cases h
    | some j =>
      rw [hj] at h
      cases h
      left
      simpa using hfc
  · rw [if_neg hfc] at h
    by_cases hnr : env.classification = NOT_RELEVANT
    · rw [if_pos hnr] at h
      cases h
      right
      simpa using hnr
    · rw [if_neg hnr] at h
      cases h

/-- C9: route_message looks its handler up at the fixed key RAG_ROUTER, so
two calls with the same message and oracles but different route values are
definitionally the same computation; the route argument does not influence
the output. -/
theorem claim9_route_ignored (env : PipelineEnv)
    (route1 route2 : SemanticRouterResponse) (message : List Char) :
    routeMessage env route1 message = routeMessage env route2 message := rfl

/-- C7: whenever the try block of get_semantic_route (prompt formatting,
generation, or parsing of the reply) raises any exception, the function
returns the CONVERSATIONAL default instead of propagating the error. -/
theorem claim7_route_fallback (renv : RouterEnv) (e : PyExc)
    (h : getSemanticRouteAttempt renv = Except.error e) :
    getSemanticRoute renv = SemanticRouterResponse.CONVERSATIONAL := by
  unfold getSemanticRoute
  rw [h]

/-- Witness for C7 at a concrete failing router oracle. -/
theorem claim7_witness :
    getSemanticRoute failingRouterEnv = SemanticRouterResponse.CONVERSATIONAL :=
  claim7_route_fallback failingRouterEnv (PyExc.genericError "routing failed".data) rfl

/-- C3: every successful response of the chat endpoint carries a
classification drawn from the enumeration consisting of FACT_CHECK and
NOT_RELEVANT; any other classification raises ValueError, which the
endpoint turns into a failed (HTTP 500) request. -/
theorem claim3_success_labels (renv : RouterEnv) (env : PipelineEnv)
    (message : List Char) (resp : RagResponse)
    (h : chatEndpoint renv env message = HttpResult.success resp) :
    resp.classification = some FACT_CHECK ∨ resp.classification = some NOT_RELEVANT := by
  unfold chatEndpoint at h
  simp only [] at h
  have hroute : routeMessage env (getSemanticRoute renv) message
      = handleRagPipeline env message := rfl
  rw [hroute] at h
  cases hr : handleRagPipeline env message with
  | error e => rw [hr] at h; cases h
  | ok msg =>
    rw [hr] at h
    simp only [] at h
    cases hcls : msg.classification with
    | none => rw [hcls] at h; cases h
    | some c =>
      rw [hcls] at h
      simp only [] at h
      by_cases hc : c = FACT_CHECK
      · rw [if_pos hc] at h
        cases h
        left
        simpa using hc
      · rw [if_neg hc] at h
        cases h
        exact handleRagPipeline_ok_label env message resp hr

/-- Witness for C3 at a concrete NOT_RELEVANT run. -/
theorem claim3_witness :
    chatEndpoint okRouterEnv notRelevantEnv "m".data
      = HttpResult.success ⟨some NOT_RELEVANT, "N/A".data, none⟩
    ∧ ((some NOT_RELEVANT : Option (List Char)) = some FACT_CHECK
        ∨ (some NOT_RELEVANT : Option (List Char)) = some NOT_RELEVANT) :=
  ⟨rfl, claim3_success_labels okRouterEnv notRelevantEnv "m".data
    ⟨some NOT_RELEVANT, "N/A".data, none⟩ rfl⟩

/-- C6: a cleaned-up synthesis reply that fails to decode makes
handle_rag_pipeline raise (nothing in the synthesis path catches the
json.JSONDecodeError), and the outermost chat handler converts the escaped
exception into HTTP 500 with the exception text as detail. -/
theorem claim6_decode_error_500 (renv : RouterEnv) (env : PipelineEnv)
    (message : List Char) (hfc : env.classification = FACT_CHECK)
    (hj : jsonLoads (cleanupAnswer (env.generateResponse message
      (semanticSearch env.rankedHits 5))) = none) :
    handleRagPipeline env message = Except.error PyExc.jsonDecodeError
    ∧ chatEndpoint renv env message
      = HttpResult.httpError 500 (pyExcText PyExc.jsonDecodeError) := by
  have h1 : handleRagPipeline env message = Except.error PyExc.jsonDecodeError := by
    unfold handleRagPipeline
    simp only []
    rw [if_pos hfc, hj]
  refine ⟨h1, ?_⟩
  unfold chatEndpoint
  simp only []
  have hroute : routeMessage env (getSemanticRoute renv) message
      = handleRagPipeline env message := rfl
  rw [hroute, h1]

/-- Witness for C6 at a concrete undecodable reply. -/
theorem claim6_witness :
    handleRagPipeline emptyRetrievalEnv "msg".data = Except.error PyExc.jsonDecodeError
    ∧ chatEndpoint okRouterEnv emptyRetrievalEnv "msg".data
      = HttpResult.httpError 500 (pyExcText PyExc.jsonDecodeError) :=
  claim6_decode_error_500 okRouterEnv emptyRetrievalEnv "msg".data rfl rfl

/-- Counterexample to C2 as stated: a message classified FACT_CHECK whose
retrieval is empty does not produce a "not relevant" style label — the
pipeline still calls the responder, and here the request throws (HTTP 500
from the uncaught decode error) instead of degrading. -/
theorem claim2_counterexample :
    emptyRetrievalEnv.classification = FACT_CHECK
    ∧ semanticSearch emptyRetrievalEnv.rankedHits 5 = []
    ∧ chatEndpoint okRouterEnv emptyRetrievalEnv "claim".data
      = HttpResult.httpError 500 (pyExcText PyExc.jsonDecodeError) :=
  ⟨rfl, rfl, rfl⟩

/-- C2 as amended: empty retrieval triggers no degrade of its own — under
FACT_CHECK the pipeline still synthesizes and any successful response keeps
the FACT_CHECK label (never a not-relevant one), while an undecodable reply
raises; the NOT_RELEVANT static response "N/A" is returned exactly when the
router itself classifies the message NOT_RELEVANT. -/
theorem claim2_amended (env : PipelineEnv) (message : List Char)
    (_hempty : semanticSearch env.rankedHits 5 = []) :
    (env.classification = FACT_CHECK →
      ∀ r, handleRagPipeline env message = Except.ok r →
        r.classification = some FACT_CHECK)
    ∧ (env.classification = NOT_RELEVANT →
        handleRagPipeline env message = Except.ok ⟨some NOT_RELEVANT, "N/A".data, none⟩) := by
  constructor
  · intro hfc r h
    unfold handleRagPipeline at h
    simp only [] at h
    rw [if_pos hfc] at h
    cases hj : jsonLoads (cleanupAnswer (env.generateResponse message
        (semanticSearch env.rankedHits 5))) with
    | none => rw [hj] at h; cases h
    | some j =>
      rw [hj] at h
      cases h
      simpa using hfc
  · intro hnr
    unfold handleRagPipeline
    simp only []
    rw [if_neg (by rw [hnr]; decide), if_pos hnr, hnr]

/-- Witness for the amended C2 at a concrete NOT_RELEVANT run with empty
retrieval. -/
theorem claim2_witness :
    handleRagPipeline notRelevantEnv "m".data
      = Except.ok ⟨some NOT_RELEVANT, "N/A".data, none⟩ :=
  (claim2_amended notRelevantEnv "m".data rfl).2 rfl

/-- Helper: one-step equation of processLogs on a cons cell. -/
theorem processLogs_cons (providers : List String) (e : ChainEvent)
    (rest : List ChainEvent) (st : List Nat) :
    processLogs providers (e :: rest) st =
      if e.requestId ∈ st then processLogs providers rest st
      else ((processLogs providers rest (e.requestId :: st)).1,
            ⟨e.requestId, e.text, providers⟩
              :: (processLogs providers rest (e.requestId :: st)).2) := by
  rw [processLogs]

/-- Helper: invariants of the deduplicated event loop.  For any request id,
(1) an id already in processed_request_ids is never dispatched again,
(2) one batch of logs dispatches an id at most once,
(3) membership in the set is preserved, and
(4) every dispatched id ends up in the set. -/
theorem processLogs_invariants (providers : List String) :
    ∀ (logs : List ChainEvent) (st : List Nat) (r : Nat),
      (r ∈ st →
        (processLogs providers logs st).2.countP (fun g => decide (g.requestId = r)) = 0)
      ∧ (processLogs providers logs st).2.countP (fun g => decide (g.requestId = r)) ≤ 1
      ∧ (r ∈ st → r ∈ (processLogs providers logs st).1)
      ∧ (1 ≤ (processLogs providers logs st).2.countP (fun g => decide (g.requestId = r))
          → r ∈ (processLogs providers logs st).1) := by
  intro logs
  induction logs with
  | nil =>
    intro st r
    refine ⟨fun _ => rfl, by simp [processLogs], fun h => h, ?_⟩
    intro h
    simp [processLogs] at h
  | cons e rest ih =>
    intro st r
    by_cases hm : e.requestId ∈ st
    · have hstep : processLogs providers (e :: rest) st = processLogs providers rest st := by
        rw [processLogs_cons, if_pos hm]
      rw [hstep]
      exact ih st r
    · have hstep : processLogs providers (e :: rest) st
          = ((processLogs providers rest (e.requestId :: st)).1,
             ⟨e.requestId, e.text, providers⟩
               :: (processLogs providers rest (e.requestId :: st)).2) := by
        rw [processLogs_cons, if_neg hm]
      rw [hstep]
      obtain ⟨ih1, ih2, ih3, ih4⟩ := ih (e.requestId :: st) r
      by_cases hr : e.requestId = r
      · subst hr
        have hz : (processLogs providers rest (e.requestId :: st)).2.countP
            (fun g => decide (g.requestId = e.requestId)) = 0 :=
          ih1 (List.mem_cons_self _ _)
        refine ⟨fun hmem => absurd hmem hm, ?_, fun hmem => absurd hmem hm, ?_⟩
        · simp [List.countP_cons, hz]
        · intro _
          exact ih3 (List.mem_cons_self _ _)
      · have hcnt : (⟨e.requestId, e.text, providers⟩
            :: (processLogs providers rest (e.requestId :: st)).2).countP
              (fun g => decide (g.requestId = r))
            = (processLogs providers rest (e.requestId :: st)).2.countP
              (fun g => decide (g.requestId = r)) := by
          simp [List.countP_cons, hr]
        refine ⟨?_, ?_, ?_, ?_⟩
        · intro hmem
          rw [hcnt]
          exact ih1 (List.mem_cons_of_mem _ hmem)
        · rw [hcnt]; exact ih2
        · intro hmem
          exact ih3 (List.mem_cons_of_mem _ hmem)
        · intro hone
          rw [hcnt] at hone
          exact ih4 hone

/-- Helper: across a whole run, an id already processed is never dispatched
again, ids stay in the set, and every id is dispatched at most once. -/
theorem runWatcher_invariants (providers : List String) :
    ∀ (iters : List (List ChainEvent)) (st : List Nat) (r : Nat),
      (r ∈ st →
        (runWatcher providers iters st).2.countP (fun g => decide (g.requestId = r)) = 0
        ∧ r ∈ (runWatcher providers iters st).1)
      ∧ (runWatcher providers iters st).2.countP (fun g => decide (g.requestId = r)) ≤ 1 := by
  intro iters
  induction iters with
  | nil => intro st r; exact ⟨fun h => ⟨rfl, h⟩, by simp [runWatcher]⟩
  | cons logs iters ih =>
    intro st r
    have hstep : runWatcher providers (logs :: iters) st
        = ((runWatcher providers iters (processLogs providers logs st).1).1,
           (processLogs providers logs st).2
             ++ (runWatcher providers iters (processLogs providers logs st).1).2) := rfl
    rw [hstep]
    obtain ⟨p1, p2, p3, p4⟩ := processLogs_invariants providers logs st r
    obtain ⟨r1, r2⟩ := ih (processLogs providers logs st).1 r
    constructor
    · intro hmem
      obtain ⟨rz, rmem⟩ := r1 (p3 hmem)
      refine ⟨?_, rmem⟩
      rw [List.countP_append, p1 hmem, rz]
    · rw [List.countP_append]
      by_cases hz : (processLogs providers logs st).2.countP
          (fun g => decide (g.requestId = r)) = 0
      · rw [hz]
        simpa using r2
      · have hone : 1 ≤ (processLogs providers logs st).2.countP
            (fun g => decide (g.requestId = r)) := Nat.one_le_iff_ne_zero.mpr hz
        obtain ⟨rz, _⟩ := r1 (p4 hone)
        rw [rz]
        simpa using p2

/-- C4: within a single run of the polling loop, however many iterations it
makes and however often events with a given request id reappear in the
fetched logs, the guarded dispatch block for that request id executes at
most once (the processed_request_ids set is consulted before and extended
at every dispatch). -/
theorem claim4_dedup (providers : List String) (iters : List (List ChainEvent)) (r : Nat) :
    (runWatcher providers iters []).2.countP (fun g => decide (g.requestId = r)) ≤ 1 :=
  (runWatcher_invariants providers iters [] r).2

/-- Helper: every dispatch group issues exactly one process_text call per
registered provider. -/
theorem processLogs_calls (providers : List String) :
    ∀ (logs : List ChainEvent) (st : List Nat) (g : DispatchGroup),
      g ∈ (processLogs providers logs st).2 → g.calls = providers := by
  intro logs
  induction logs with
  | nil => intro st g hg; simp [processLogs] at hg
  | cons e rest ih =>
    intro st g hg
    by_cases hm : e.requestId ∈ st
    · have hstep : processLogs providers (e :: rest) st = processLogs providers rest st := by
        rw [processLogs_cons, if_pos hm]
      rw [hstep] at hg
      exact ih st g hg
    · have hstep : processLogs providers (e :: rest) st
          = ((processLogs providers rest (e.requestId :: st)).1,
             ⟨e.requestId, e.text, providers⟩
               :: (processLogs providers rest (e.requestId :: st)).2) := by
        rw [processLogs_cons, if_neg hm]
      rw [hstep] at hg
      rcases List.mem_cons.mp hg with hg2 | hg2
      · rw [hg2]
      · exact ih (e.requestId :: st) g hg2

/-- Counterexample to C5 as stated: with the three registered model/account
pairs of the source, a single new on-chain event triggers three
process_text dispatches (one fact-check plus transaction submission per
registered model), not exactly one. -/
theorem claim5_counterexample :
    (allCalls (runWatcher registeredModels [[⟨0, "claim".data⟩]] []).2).countP
      (fun c => decide (c.2 = 0)) = 3
    ∧ (3 : Nat) ≠ 1 := by
  constructor
  · rfl
  · decide

/-- C5 as amended: for every new (not previously seen) on-chain event the
watcher executes its dispatch block exactly once, and each dispatch block
issues exactly one fact-check-plus-submission call per registered
model/provider pair — three with the accounts configured in the source, so
only a deployment with a single registered provider dispatches exactly
once per event. -/
theorem claim5_amended (providers : List String) (logs : List ChainEvent)
    (st : List Nat) (e : ChainEvent) (hmem : e ∈ logs) (hnew : e.requestId ∉ st) :
    (processLogs providers logs st).2.countP
      (fun g => decide (g.requestId = e.requestId)) = 1
    ∧ ∀ g ∈ (processLogs providers logs st).2, g.calls = providers := by
  refine ⟨?_, processLogs_calls providers logs st⟩
  induction logs generalizing st with
  | nil => cases hmem
  | cons f rest ih =>
    by_cases hf : f.requestId ∈ st
    · have hstep : processLogs providers (f :: rest) st = processLogs providers rest st := by
        rw [processLogs_cons, if_pos hf]
      rw [hstep]
      have hne : e ≠ f := by
        intro hef
        rw [hef] at hnew
        exact hnew hf
      have hmem' : e ∈ rest := by
        rcases List.mem_cons.mp hmem with h2 | h2
        · exact absurd h2 hne
        · exact h2
      exact ih st hmem' hnew
    · have hstep : processLogs providers (f :: rest) st
          = ((processLogs providers rest (f.requestId :: st)).1,
             ⟨f.requestId, f.text, providers⟩
               :: (processLogs providers rest (f.requestId :: st)).2) := by
        rw [processLogs_cons, if_neg hf]
      rw [hstep]
      by_cases hef : f.requestId = e.requestId
      · have hz : (processLogs providers rest (f.requestId :: st)).2.countP
            (fun g => decide (g.requestId = e.requestId)) = 0 := by
          have hinv := (processLogs_invariants providers rest (f.requestId :: st)
            e.requestId).1
          exact hinv (by rw [← hef]; exact List.mem_cons_self _ _)
        rw [List.countP_cons, hz]
        simp [hef]
      · have hne : e ≠ f := fun hef2 => hef (by rw [hef2])
        have hmem' : e ∈ rest := by
          rcases List.mem_cons.mp hmem with h2 | h2
          · exact absurd h2 hne
          · exact h2
        have hnew' : e.requestId ∉ f.requestId :: st := by
          intro hc
          rcases List.mem_cons.mp hc with hc2 | hc2
          · exact hef hc2.symm
          · exact hnew hc2
        have hrec := ih (f.requestId :: st) hmem' hnew'
        rw [List.countP_cons, hrec]
        simp [hef]

/-- Witness for the amended C5 at a concrete single-event run with the three
registered models. -/
theorem claim5_witness :
    (processLogs registeredModels [⟨7, "t".data⟩] []).2.countP
      (fun g => decide (g.requestId = 7)) = 1
    ∧ ∀ g ∈ (processLogs registeredModels [⟨7, "t".data⟩] []).2,
        g.calls = registeredModels :=
  claim5_amended registeredModels [⟨7, "t".data⟩] [] ⟨7, "t".data⟩
    (List.mem_singleton.mpr rfl) (List.not_mem_nil _)

/-- Helper: once the enumerate counter has reached 200 the row loop breaks
immediately and collects nothing. -/
theorem collectPoints_break (embed : DocRow → EmbedOutcome) (idx : Nat)
    (rows : List DocRow) (h : 200 ≤ idx) :
    collectPoints embed idx rows = Except.ok [] := by
  cases rows with
  | nil => rw [collectPoints]
  | cons row rest =>
    rw [collectPoints, if_pos h]

/-- Helper: one-step equation of the row loop below the index limit. -/
theorem collectPoints_cons (embed : DocRow → EmbedOutcome) (idx : Nat)
    (row : DocRow) (rest : List DocRow) (h : idx < 200) :
    collectPoints embed idx (row :: rest) =
      match row.content with
      | Cell.nonText => collectPoints embed (idx + 1) rest
      | Cell.text content =>
        match embed row with
        | EmbedOutcome.ok v =>
          match collectPoints embed (idx + 1) rest with
          | Except.ok pts =>
            Except.ok (⟨idx, v, row.file_name, row.meta_data, content⟩ :: pts)
          | Except.error e => Except.error e
        | EmbedOutcome.invalidArgumentPayloadTooLarge =>
          collectPoints embed (idx + 1) rest
        | EmbedOutcome.invalidArgumentOther =>
          Except.error (PyExc.keyError "Filename".data)
        | EmbedOutcome.otherException =>
          collectPoints embed (idx + 1) rest := by
  rw [collectPoints, if_neg (by omega)]

/-- Helper: the row loop starting at index idx inserts at most 200 - idx
documents. -/
theorem collectPoints_inserted_le (embed : DocRow → EmbedOutcome) :
    ∀ (rows : List DocRow) (idx : Nat),
      insertedCount (collectPoints embed idx rows) ≤ 200 - idx := by
  intro rows
  induction rows with
  | nil =>
    intro idx
    rw [collectPoints]
    simp [insertedCount]
  | cons row rest ih =>
    intro idx
    by_cases hidx : 200 ≤ idx
    · rw [collectPoints_break embed idx _ hidx]
      simp [insertedCount]
    · rw [collectPoints_cons embed idx row rest (by omega)]
      have hrec := ih (idx + 1)
      cases hc : row.content with
      | nonText =>
        calc insertedCount (collectPoints embed (idx + 1) rest) ≤ 200 - (idx + 1) := hrec
          _ ≤ 200 - idx := by omega
      | text content =>
        cases he : embed row with
        | ok v =>
          cases hrest : collectPoints embed (idx + 1) rest with
          | ok pts =>
            rw [hrest] at hrec
            simp only [insertedCount, List.length_cons] at hrec ⊢
            omega
          | error e => simp [insertedCount]
        | invalidArgumentPayloadTooLarge =>
          calc insertedCount (collectPoints embed (idx + 1) rest) ≤ 200 - (idx + 1) := hrec
            _ ≤ 200 - idx := by omega
        | invalidArgumentOther => simp [insertedCount]
        | otherException =>
          calc insertedCount (collectPoints embed (idx + 1) rest) ≤ 200 - (idx + 1) := hrec
            _ ≤ 200 - idx := by omega

/-- C8: retrieval never returns more than k results (the spec-modelled
semantic_search truncates the store's ranked hits to k), and collection
generation skips a row whose content cell is not a text string, continuing
with the remaining rows instead of raising. -/
theorem claim8_topk_and_skip (rankedHits : List RetrievedDoc) (k : Nat)
    (embed : DocRow → EmbedOutcome) (idx : Nat) (row : DocRow)
    (rest : List DocRow) (hrow : row.content = Cell.nonText) :
    (semanticSearch rankedHits k).length ≤ k
    ∧ collectPoints embed idx (row :: rest) = collectPoints embed (idx + 1) rest := by
  constructor
  · simp only [semanticSearch, List.length_take]
    omega
  · by_cases hidx : 200 ≤ idx
    · rw [collectPoints_break embed idx _ hidx,
        collectPoints_break embed (idx + 1) rest (by omega)]
    · rw [collectPoints_cons embed idx row rest (by omega), hrow]

/-- Witness for C8 at a concrete non-text row and k = 5. -/
theorem claim8_witness :
    (semanticSearch [] 5).length ≤ 5
    ∧ collectPoints embedNone 1 [nonTextRow] = collectPoints embedNone 2 [] :=
  claim8_topk_and_skip [] 5 embedNone 1 nonTextRow [] rfl

/-- C10: for every input dataframe, generate_collection inserts at most 199
documents (the 1-based row loop breaks when the index reaches 200), and it
inserts nothing at all when the existing collection already holds more than
150 points. -/
theorem claim10_limits (pointsCount : Option Nat) (embed : DocRow → EmbedOutcome)
    (rows : List DocRow) :
    insertedCount (generateCollection pointsCount embed rows) ≤ 199
    ∧ (∀ n, pointsCount = some n → 150 < n →
        generateCollection pointsCount embed rows = Except.ok []) := by
  constructor
  · unfold generateCollection
    by_cases hchk : collectionExistsCheck pointsCount = true
    · rw [if_pos hchk]
      simp [insertedCount]
    · rw [if_neg hchk]
      have := collectPoints_inserted_le embed rows 1
      omega
  · intro n hn h150
    unfold generateCollection
    rw [if_pos]
    rw [hn]
    unfold collectionExistsCheck
    simpa using h150

/-- Witness for C10 at a concrete 151-point existing collection. -/
theorem claim10_witness :
    insertedCount (generateCollection (some 151) embedNone []) ≤ 199
    ∧ generateCollection (some 151) embedNone [] = Except.ok [] :=
  ⟨(claim10_limits (some 151) embedNone []).1,
   (claim10_limits (some 151) embedNone []).2 151 rfl (by decide)⟩

/-- Helper: a string is a beq-prefix of itself followed by anything. -/
theorem isPrefixOf_append (l t : List Char) : l.isPrefixOf (l ++ t) = true := by
  induction l with
  | nil => simp [List.isPrefixOf]
  | cons c cs ih => simp [List.isPrefixOf, ih]

/-- Helper: a string is a beq-suffix of anything followed by itself. -/
theorem isSuffixOf_append (t l : List Char) : t.isSuffixOf (l ++ t) = true := by
  simp [List.isSuffixOf, List.reverse_append, isPrefixOf_append]

/-- Helper: lstrip distributes over an append whose left part does not strip
to nothing. -/
theorem lstrip_append_pos (xs ys : List Char) (h : ¬ lstrip xs = []) :
    lstrip (xs ++ ys) = lstrip xs ++ ys := by
  unfold lstrip at h ⊢
  rw [List.dropWhile_append, if_neg]
  intro hc
  exact h (List.isEmpty_iff.mp hc)

/-- Helper: lstrip skips an all-whitespace left part entirely. -/
theorem lstrip_append_nil (xs ys : List Char) (h : lstrip xs = []) :
    lstrip (xs ++ ys) = lstrip ys := by
  unfold lstrip at h ⊢
  rw [List.dropWhile_append, if_pos]
  exact List.isEmpty_iff.mpr h

/-- Helper: rstrip keeps a string whose last character is not whitespace. -/
theorem rstrip_append_last (l : List Char) (c : Char) (h : isPySpace c = false) :
    rstrip (l ++ [c]) = l ++ [c] := by
  unfold rstrip
  rw [List.reverse_append]
  simp [List.dropWhile_cons, h]

/-- Helper: rstrip removes a trailing whitespace character. -/
theorem rstrip_append_space (l : List Char) (c : Char) (h : isPySpace c = true) :
    rstrip (l ++ [c]) = rstrip l := by
  unfold rstrip
  rw [List.reverse_append]
  simp [List.dropWhile_cons, h]

/-- Helper: strip absorbs a trailing whitespace character. -/
theorem pyStrip_append_space (l : List Char) (c : Char) (h : isPySpace c = true) :
    pyStrip (l ++ [c]) = pyStrip l := by
  unfold pyStrip
  by_cases hx : lstrip l = []
  · rw [lstrip_append_nil l [c] hx, hx]
    unfold lstrip
    simp [List.dropWhile_cons, h]
  · rw [lstrip_append_pos l [c] hx, rstrip_append_space _ c h]

/-- Helper: replaceChar leaves a string without the replaced character
unchanged. -/
theorem replaceChar_not_mem (a b : Char) (l : List Char) (h : a ∉ l) :
    replaceChar a b l = l := by
  unfold replaceChar
  induction l with
  | nil => rfl
  | cons c cs ih =>
    have hca : ¬ c = a := fun hc => h (by rw [hc]; exact List.mem_cons_self _ _)
    simp only [List.map_cons, if_neg hca]
    rw [ih (fun hc => h (List.mem_cons_of_mem _ hc))]

/-- Helper: the quote substitution maps whitespace to whitespace and
non-whitespace to non-whitespace. -/
theorem isPySpace_replQ (c : Char) :
    isPySpace (if c = squote then dquote else c) = isPySpace c := by
  by_cases h : c = squote
  · rw [if_pos h, h]
    decide
  · rw [if_neg h]

/-- Helper: the quote substitution commutes with lstrip. -/
theorem lstrip_replaceChar (l : List Char) :
    lstrip (replaceChar squote dquote l) = replaceChar squote dquote (lstrip l) := by
  unfold lstrip replaceChar
  rw [List.dropWhile_map]
  have h : (isPySpace ∘ fun c => if c = squote then dquote else c) = isPySpace :=
    funext (fun c => isPySpace_replQ c)
  rw [h]

/-- Helper: the quote substitution commutes with rstrip. -/
theorem rstrip_replaceChar (l : List Char) :
    rstrip (replaceChar squote dquote l) = replaceChar squote dquote (rstrip l) := by
  unfold rstrip replaceChar
  rw [← List.map_reverse, List.dropWhile_map]
  have h : (isPySpace ∘ fun c => if c = squote then dquote else c) = isPySpace :=
    funext (fun c => isPySpace_replQ c)
  rw [h, List.map_reverse]

/-- Helper: the quote substitution commutes with strip. -/
theorem pyStrip_replaceChar (l : List Char) :
    pyStrip (replaceChar squote dquote l) = replaceChar squote dquote (pyStrip l) := by
  unfold pyStrip
  rw [lstrip_replaceChar, rstrip_replaceChar]

/-- Helper: lstrip is idempotent. -/
theorem lstrip_idem (l : List Char) : lstrip (lstrip l) = lstrip l := by
  unfold lstrip
  induction l with
  | nil => rfl
  | cons c cs ih =>
    by_cases h : isPySpace c = true
    · simp [List.dropWhile_cons, h, ih]
    · simp [List.dropWhile_cons, h]

/-- Helper: a character absent from a string is absent from its lstrip. -/
theorem not_mem_lstrip (a : Char) (l : List Char) (h : a ∉ l) : a ∉ lstrip l :=
  fun hc => h ((List.dropWhile_sublist isPySpace).subset hc)

/-- Helper: the trailing fence written with named backtick characters. -/
theorem fenceClose_eq : fenceClose = [btick, btick, btick] := by decide

/-- Helper: dropping the last three characters of a list extended by three
characters recovers the list. -/
theorem dropLast3_append3 (l : List Char) (a b c : Char) :
    dropLast3 (l ++ [a, b, c]) = l := by
  have h1 : l ++ [a, b, c] = (l ++ [a, b]) ++ [c] := by simp
  have h2 : l ++ [a, b] = (l ++ [a]) ++ [b] := by simp
  unfold dropLast3
  rw [h1, List.dropLast_concat, h2, List.dropLast_concat, List.dropLast_concat]

/-- Helper: the first-line drop of the cleanup removes exactly the fence
line of a fenced reply. -/
theorem dropThroughNewline_fence (X : List Char) :
    dropThroughNewline (fenceJson ++ '\n' :: X) = X := by
  unfold dropThroughNewline
  rw [List.dropWhile_append_of_pos (by decide)]
  simp [List.dropWhile_cons]

/-- Helper: the fence wrapper in constructor form. -/
theorem fenceWrap_eq (body : List Char) :
    fenceWrap body = fenceJson ++ '\n' :: (body ++ '\n' :: fenceClose) := rfl

/-- Helper: one-step image of a cons under the newline-to-space
substitution. -/
theorem replNl_cons (c : Char) (l : List Char) :
    replaceChar '\n' ' ' (c :: l)
      = (if c = '\n' then ' ' else c) :: replaceChar '\n' ' ' l := rfl

/-- Helper: the newline-to-space substitution fixes a non-newline head. -/
theorem replNl_cons_of_ne (c : Char) (l : List Char) (h : ¬ c = '\n') :
    replaceChar '\n' ' ' (c :: l) = c :: replaceChar '\n' ' ' l := by
  rw [replNl_cons, if_neg h]

/-- Helper: the newline-to-space substitution maps Python whitespace to
Python whitespace. -/
theorem isPySpace_replNl (c : Char) :
    isPySpace (if c = '\n' then ' ' else c) = isPySpace c := by
  by_cases h : c = '\n'
  · rw [if_pos h, h]
    decide
  · rw [if_neg h]

/-- Helper: the newline-to-space substitution maps JSON whitespace to JSON
whitespace. -/
theorem isJsonWs_replNl (c : Char) :
    isJsonWs (if c = '\n' then ' ' else c) = isJsonWs c := by
  by_cases h : c = '\n'
  · rw [if_pos h, h]
    decide
  · rw [if_neg h]

/-- Helper: the newline-to-space substitution preserves digit-ness. -/
theorem isDigit_replNl (c : Char) :
    (if c = '\n' then ' ' else c).isDigit = c.isDigit := by
  by_cases h : c = '\n'
  · rw [if_pos h, h]
    decide
  · rw [if_neg h]

/-- Helper: the newline-to-space substitution commutes with lstrip. -/
theorem lstrip_replNl (l : List Char) :
    lstrip (replaceChar '\n' ' ' l) = replaceChar '\n' ' ' (lstrip l) := by
  unfold lstrip replaceChar
  rw [List.dropWhile_map]
  have h : (isPySpace ∘ fun c => if c = '\n' then ' ' else c) = isPySpace :=
    funext (fun c => isPySpace_replNl c)
  rw [h]

/-- Helper: the newline-to-space substitution commutes with rstrip. -/
theorem rstrip_replNl (l : List Char) :
    rstrip (replaceChar '\n' ' ' l) = replaceChar '\n' ' ' (rstrip l) := by
  unfold rstrip replaceChar
  rw [← List.map_reverse, List.dropWhile_map]
  have h : (isPySpace ∘ fun c => if c = '\n' then ' ' else c) = isPySpace :=
    funext (fun c => isPySpace_replNl c)
  rw [h, List.map_reverse]

/-- Helper: the newline-to-space substitution commutes with strip. -/
theorem pyStrip_replNl (l : List Char) :
    pyStrip (replaceChar '\n' ' ' l) = replaceChar '\n' ' ' (pyStrip l) := by
  unfold pyStrip
  rw [lstrip_replNl, rstrip_replNl]

/-- Helper: the quote substitution and the newline-to-space substitution
act on disjoint characters and commute. -/
theorem replQ_replNl_comm (l : List Char) :
    replaceChar squote dquote (replaceChar '\n' ' ' l)
      = replaceChar '\n' ' ' (replaceChar squote dquote l) := by
  unfold replaceChar
  rw [List.map_map, List.map_map]
  refine List.map_congr_left (fun c _ => ?_)
  by_cases h1 : c = '\n'
  · rw [h1]
    decide
  · by_cases h2 : c = squote
    · rw [h2]
      decide
    · simp [Function.comp, h1, h2]

/-- Helper: the newline-to-space substitution commutes with skipping JSON
whitespace. -/
theorem skipWs_replNl (l : List Char) :
    skipWs (replaceChar '\n' ' ' l) = replaceChar '\n' ' ' (skipWs l) := by
  unfold skipWs replaceChar
  rw [List.dropWhile_map]
  have h : (isJsonWs ∘ fun c => if c = '\n' then ' ' else c) = isJsonWs :=
    funext (fun c => isJsonWs_replNl c)
  rw [h]

/-- Helper: the head of a whitespace-skipped list is not JSON whitespace. -/
theorem skipWs_head_false :
    ∀ (l : List Char) (c : Char) (r : List Char),
      skipWs l = c :: r → isJsonWs c = false := by
  intro l
  induction l with
  | nil => intro c r h; cases h
  | cons a as ih =>
    intro c r h
    rw [skipWs, List.dropWhile_cons] at h
    by_cases ha : isJsonWs a = true
    · rw [if_pos ha] at h
      exact ih c r h
    · rw [if_neg ha] at h
      cases h
      exact Bool.eq_false_iff.mpr ha

/-- Helper: the head of a whitespace-skipped list is never a newline. -/
theorem ne_nl_of_skipWs (l : List Char) (c : Char) (r : List Char)
    (h : skipWs l = c :: r) : ¬ c = '\n' := by
  intro hc
  have := skipWs_head_false l c r h
  rw [hc] at this
  exact absurd this (by decide)

/-- Helper: every escapable character is fixed by the newline-to-space
substitution (a raw newline has no entry in the escape table). -/
theorem escChar_ne_nl (e d : Char) (h : escChar e = some d) : ¬ e = '\n' := by
  intro he
  rw [he] at h
  rw [show escChar '\n' = none from rfl] at h
  cases h

/-- Helper: a decoded JSON string is insensitive to the newline-to-space
substitution of the raw input — a raw newline inside a string literal is a
control character the strict decoder rejects, so on a successful parse the
substitution only touches the unconsumed remainder. -/
theorem parseStringBody_cons (c : Char) (rest : List Char) :
    parseStringBody (c :: rest) =
      if c = dquote then some ([], rest)
      else if c = '\\' then
        match rest with
        | [] => none
        | e :: rest2 =>
          match escChar e, parseStringBody rest2 with
          | some d, some (cs, r) => some (d :: cs, r)
          | _, _ => none
      else if c.toNat < 32 then none
      else
        match parseStringBody rest with
        | some (cs, r) => some (c :: cs, r)
        | none => none := by
  rw [parseStringBody.eq_def]

/-- Helper: a decoded JSON string is insensitive to the newline-to-space
substitution of the raw input — a raw newline inside a string literal is a
control character the strict decoder rejects, so on a successful parse the
substitution only touches the unconsumed remainder. -/
theorem parseStringBody_replNl (l : List Char) :
    ∀ (cs r : List Char), parseStringBody l = some (cs, r) →
      parseStringBody (replaceChar '\n' ' ' l) = some (cs, replaceChar '\n' ' ' r) := by
  induction l using parseStringBody.induct with
  | case1 =>
    intro cs r h
    cases h
  | case2 rest =>
    intro cs r h
    rw [parseStringBody_cons, if_pos rfl] at h
    cases h
    rw [replNl_cons_of_ne dquote rest (by decide), parseStringBody_cons, if_pos rfl]
  | case3 hne =>
    intro cs r h
    rw [parseStringBody_cons, if_neg (by decide : ¬ ('\\' : Char) = dquote),
      if_pos rfl] at h
    cases h
  | case4 head rest d cs r hps hesc hne ih =>
    intro cs' r' h
    rw [parseStringBody_cons, if_neg (by decide : ¬ ('\\' : Char) = dquote),
      if_pos rfl] at h
    simp only [] at h
    rw [hesc, hps] at h
    simp only [] at h
    cases h
    have ihr := ih cs r hps
    rw [replNl_cons_of_ne '\\' _ (by decide),
      replNl_cons_of_ne head _ (escChar_ne_nl head d hesc),
      parseStringBody_cons, if_neg (by decide : ¬ ('\\' : Char) = dquote), if_pos rfl]
    simp only []
    rw [hesc, ihr]
  | case5 head rest hne hfail ih =>
    intro cs' r' h
    rw [parseStringBody_cons, if_neg (by decide : ¬ ('\\' : Char) = dquote),
      if_pos rfl] at h
    simp only [] at h
    cases h
  | case6 head rest h1 h2 h3 =>
    intro cs r h
    rw [parseStringBody_cons, if_neg h1, if_neg h2, if_pos h3] at h
    cases h
  | case7 head rest h1 h2 h3 cs r hps ih =>
    intro cs' r' h
    rw [parseStringBody_cons, if_neg h1, if_neg h2, if_neg h3, hps] at h
    simp only [] at h
    cases h
    have hcn : ¬ head = '\n' := by
      intro hc
      rw [hc] at h3
      exact h3 (by decide)
    have ihr := ih cs r hps
    rw [replNl_cons_of_ne head rest hcn, parseStringBody_cons, if_neg h1, if_neg h2,
      if_neg h3, ihr]
  | case8 head rest h1 h2 h3 hnone ih =>
    intro cs r h
    rw [parseStringBody_cons, if_neg h1, if_neg h2, if_neg h3, hnone] at h
    cases h

/-- Helper: the digit prefix of a string is unchanged by the newline-to-space
substitution. -/
theorem takeWhile_digit_replNl (s : List Char) :
    (replaceChar '\n' ' ' s).takeWhile Char.isDigit = s.takeWhile Char.isDigit := by
  unfold replaceChar
  rw [List.takeWhile_map]
  have h : (Char.isDigit ∘ fun c => if c = '\n' then ' ' else c) = Char.isDigit :=
    funext (fun c => isDigit_replNl c)
  rw [h]
  have h1 : List.map (fun c => if c = '\n' then ' ' else c) (s.takeWhile Char.isDigit)
      = List.map id (s.takeWhile Char.isDigit) := by
    refine List.map_congr_left (fun a ha => ?_)
    have hd : a.isDigit = true := List.mem_takeWhile_imp ha
    have hne : ¬ a = '\n' := by
      intro hc
      rw [hc] at hd
      exact absurd hd (by decide)
    rw [if_neg hne]
    rfl
  rw [h1, List.map_id]

/-- Helper: the newline-to-space substitution commutes with dropping the
digit prefix. -/
theorem dropWhile_digit_replNl (s : List Char) :
    (replaceChar '\n' ' ' s).dropWhile Char.isDigit
      = replaceChar '\n' ' ' (s.dropWhile Char.isDigit) := by
  unfold replaceChar
  rw [List.dropWhile_map]
  have h : (Char.isDigit ∘ fun c => if c = '\n' then ' ' else c) = Char.isDigit :=
    funext (fun c => isDigit_replNl c)
  rw [h]

/-- Helper: a successfully parsed unsigned numeral is insensitive to the
newline-to-space substitution of the raw input. -/
theorem parseIntCore_replNl (s : List Char) (n : Int) (r : List Char)
    (h : parseIntCore s = some (n, r)) :
    parseIntCore (replaceChar '\n' ' ' s) = some (n, replaceChar '\n' ' ' r) := by
  unfold parseIntCore at h ⊢
  simp only [] at h ⊢
  rw [takeWhile_digit_replNl, dropWhile_digit_replNl]
  cases hds : s.takeWhile Char.isDigit with
  | nil =>
    rw [hds] at h
    cases h
  | cons d ds2 =>
    rw [hds] at h
    simp only [] at h ⊢
    by_cases hz : (d = '0' && ds2 ≠ []) = true
    · rw [if_pos hz] at h
      cases h
    · rw [if_neg hz] at h
      rw [if_neg hz]
      cases hrest : s.dropWhile Char.isDigit with
      | nil =>
        rw [hrest] at h
        simp only [] at h
        cases h
        simp [replaceChar]
      | cons c rtail =>
        rw [hrest] at h
        simp only [] at h
        by_cases hc : (c = '.' || c = 'e' || c = 'E') = true
        · rw [if_pos hc] at h
          cases h
        · rw [if_neg hc] at h
          cases h
          rw [replNl_cons]
          simp only []
          have hc2 : ((if c = '\n' then ' ' else c) = '.'
              || (if c = '\n' then ' ' else c) = 'e'
              || (if c = '\n' then ' ' else c) = 'E') = false := by
            by_cases hn : c = '\n'
            · rw [if_pos hn]
              decide
            · rw [if_neg hn]
              simpa using hc
          rw [if_neg (by rw [hc2]; exact Bool.false_ne_true)]

/-- Helper: a successfully parsed numeral starts with a minus sign or a
digit. -/
theorem parseIntToken_head (c : Char) (rest : List Char) (n : Int) (r : List Char)
    (h : parseIntToken (c :: rest) = some (n, r)) : c = '-' ∨ c.isDigit = true := by
  unfold parseIntToken at h
  simp only [] at h
  by_cases hc : c = '-'
  · exact Or.inl hc
  · rw [if_neg hc] at h
    unfold parseIntCore at h
    simp only [] at h
    by_cases hd : c.isDigit = true
    · exact Or.inr hd
    · rw [List.takeWhile_cons, if_neg hd] at h
      simp only [] at h
      cases h

/-- Helper: a successfully parsed numeral is insensitive to the
newline-to-space substitution of the raw input. -/
theorem parseIntToken_replNl (l : List Char) (n : Int) (r : List Char)
    (h : parseIntToken l = some (n, r)) :
    parseIntToken (replaceChar '\n' ' ' l) = some (n, replaceChar '\n' ' ' r) := by
  cases l with
  | nil =>
    rw [parseIntToken] at h
    cases h
  | cons c rest =>
    have hcn : ¬ c = '\n' := by
      intro hc
      rcases parseIntToken_head c rest n r h with hd | hd
      · rw [hc] at hd
        exact absurd hd (by decide)
      · rw [hc] at hd
        exact absurd hd (by decide)
    rw [replNl_cons_of_ne c rest hcn]
    unfold parseIntToken at h ⊢
    simp only [] at h ⊢
    by_cases hm : c = '-'
    · rw [if_pos hm] at h ⊢
      cases hcore : parseIntCore rest with
      | none => rw [hcore] at h; cases h
      | some p =>
        obtain ⟨n2, r2⟩ := p
        rw [hcore] at h
        simp only [] at h
        cases h
        rw [parseIntCore_replNl rest _ _ hcore]
    · rw [if_neg hm] at h ⊢
      have hthis := parseIntCore_replNl (c :: rest) n r h
      rw [replNl_cons_of_ne c rest hcn] at hthis
      exact hthis

/-- Helper: one-step equation of parseValue at zero fuel. -/
theorem parseValue_zero (l : List Char) : parseValue 0 l = none := by
  rw [parseValue.eq_def]

/-- Helper: one-step equation of parseValue at positive fuel. -/
theorem parseValue_succ (fuel : Nat) (l : List Char) :
    parseValue (Nat.succ fuel) l =
      match skipWs l with
      | [] => none
      | c :: rest =>
        if c = dquote then
          match parseStringBody rest with
          | some (cs, r) => some (Json.jstr cs, r)
          | none => none
        else if c = lbrace then
          match skipWs rest with
          | [] => none
          | c2 :: r2 =>
            if c2 = rbrace then some (Json.jobj [], r2)
            else
              match parseObjectTail fuel (c2 :: r2) with
              | some (kvs, r3) => some (Json.jobj kvs, r3)
              | none => none
        else if c = '[' then
          match skipWs rest with
          | [] => none
          | c2 :: r2 =>
            if c2 = ']' then some (Json.jarr [], r2)
            else
              match parseArrayTail fuel (c2 :: r2) with
              | some (vs, r3) => some (Json.jarr vs, r3)
              | none => none
        else
          match c :: rest with
          | 'n' :: 'u' :: 'l' :: 'l' :: r => some (Json.jnull, r)
          | 't' :: 'r' :: 'u' :: 'e' :: r => some (Json.jbool true, r)
          | 'f' :: 'a' :: 'l' :: 's' :: 'e' :: r => some (Json.jbool false, r)
          | s =>
            match parseIntToken s with
            | some (n, r) => some (Json.jint n, r)
            | none => none := by
  rw [parseValue.eq_def]

/-- Helper: one-step equation of parseArrayTail at positive fuel. -/
theorem parseArrayTail_succ (fuel : Nat) (l : List Char) :
    parseArrayTail (Nat.succ fuel) l =
      match parseValue fuel l with
      | none => none
      | some (v, r) =>
        match skipWs r with
        | [] => none
        | c :: r2 =>
          if c = ',' then
            match parseArrayTail fuel r2 with
            | some (vs, r3) => some (v :: vs, r3)
            | none => none
          else if c = ']' then some ([v], r2)
          else none := by
  rw [parseArrayTail.eq_def]

/-- Helper: one-step equation of parseObjectTail at positive fuel. -/
theorem parseObjectTail_succ (fuel : Nat) (l : List Char) :
    parseObjectTail (Nat.succ fuel) l =
      match skipWs l with
      | [] => none
      | c :: r =>
        if c = dquote then
          match parseStringBody r with
          | none => none
          | some (key, r2) =>
            match skipWs r2 with
            | [] => none
            | c2 :: r3 =>
              if c2 = ':' then
                match parseValue fuel r3 with
                | none => none
                | some (v, r4) =>
                  match skipWs r4 with
                  | [] => none
                  | c3 :: r5 =>
                    if c3 = ',' then
                      match parseObjectTail fuel r5 with
                      | some (kvs, r6) => some ((key, v) :: kvs, r6)
                      | none => none
                    else if c3 = rbrace then some ([(key, v)], r5)
                    else none
              else none
        else none := by
  rw [parseObjectTail.eq_def]

/-- Helper: a successful parse of any JSON value (and of array and object
tails) is insensitive to the newline-to-space substitution of the raw
input: every raw newline accepted by a successful strict parse lies in
inter-token whitespace, where a space is equally acceptable. -/
theorem parse_replNl : ∀ (fuel : Nat),
    (∀ (l : List Char) (j : Json) (r : List Char),
      parseValue fuel l = some (j, r) →
      parseValue fuel (replaceChar '\n' ' ' l) = some (j, replaceChar '\n' ' ' r))
    ∧ (∀ (l : List Char) (vs : List Json) (r : List Char),
      parseArrayTail fuel l = some (vs, r) →
      parseArrayTail fuel (replaceChar '\n' ' ' l) = some (vs, replaceChar '\n' ' ' r))
    ∧ (∀ (l : List Char) (kvs : List (List Char × Json)) (r : List Char),
      parseObjectTail fuel l = some (kvs, r) →
      parseObjectTail fuel (replaceChar '\n' ' ' l)
        = some (kvs, replaceChar '\n' ' ' r)) := by
  intro fuel
  induction fuel with
  | zero =>
    refine ⟨?_, ?_, ?_⟩
    · intro l j r h
      rw [parseValue_zero] at h
      cases h
    · intro l vs r h
      rw [show parseArrayTail 0 l = none from by rw [parseArrayTail.eq_def]] at h
      cases h
    · intro l kvs r h
      rw [show parseObjectTail 0 l = none from by rw [parseObjectTail.eq_def]] at h
      cases h
  | succ fuel ih =>
    obtain ⟨ihV, ihA, ihO⟩ := ih
    refine ⟨?_, ?_, ?_⟩
    · intro l j r h
      rw [parseValue_succ] at h
      rw [parseValue_succ, skipWs_replNl]
      cases hsw : skipWs l with
      | nil => rw [hsw] at h; cases h
      | cons c rest =>
        have hcn : ¬ c = '\n' := ne_nl_of_skipWs l c rest hsw
        rw [hsw] at h
        rw [replNl_cons_of_ne c rest hcn]
        simp only [] at h ⊢
        by_cases h1 : c = dquote
        · rw [if_pos h1] at h ⊢
          cases hsb : parseStringBody rest with
          | none => rw [hsb] at h; cases h
          | some p =>
            obtain ⟨cs, r2⟩ := p
            rw [hsb] at h
            simp only [] at h
            cases h
            rw [parseStringBody_replNl rest _ _ hsb]
        · rw [if_neg h1] at h ⊢
          by_cases h2 : c = lbrace
          · rw [if_pos h2] at h ⊢
            rw [skipWs_replNl]
            cases hsw2 : skipWs rest with
            | nil => rw [hsw2] at h; cases h
            | cons c2 r2 =>
              have hc2 : ¬ c2 = '\n' := ne_nl_of_skipWs rest c2 r2 hsw2
              rw [hsw2] at h
              rw [replNl_cons_of_ne c2 r2 hc2]
              simp only [] at h ⊢
              by_cases h3 : c2 = rbrace
              · rw [if_pos h3] at h ⊢
                cases h
                rfl
              · rw [if_neg h3] at h ⊢
                cases hob : parseObjectTail fuel (c2 :: r2) with
                | none => rw [hob] at h; cases h
                | some p =>
                  obtain ⟨kvs, r3⟩ := p
                  rw [hob] at h
                  simp only [] at h
                  cases h
                  have hrec := ihO (c2 :: r2) _ _ hob
                  rw [replNl_cons_of_ne c2 r2 hc2] at hrec
                  rw [hrec]
          · rw [if_neg h2] at h ⊢
            by_cases h4 : c = '['
            · rw [if_pos h4] at h ⊢
              rw [skipWs_replNl]
              cases hsw2 : skipWs rest with
              | nil => rw [hsw2] at h; cases h
              | cons c2 r2 =>
                have hc2 : ¬ c2 = '\n' := ne_nl_of_skipWs rest c2 r2 hsw2
                rw [hsw2] at h
                rw [replNl_cons_of_ne c2 r2 hc2]
                simp only [] at h ⊢
                by_cases h5 : c2 = ']'
                · rw [if_pos h5] at h ⊢
                  cases h
                  rfl
                · rw [if_neg h5] at h ⊢
                  cases hat : parseArrayTail fuel (c2 :: r2) with
                  | none => rw [hat] at h; cases h
                  | some p =>
                    obtain ⟨vs, r3⟩ := p
                    rw [hat] at h
                    simp only [] at h
                    cases h
                    have hrec := ihA (c2 :: r2) _ _ hat
                    rw [replNl_cons_of_ne c2 r2 hc2] at hrec
                    rw [hrec]
            · rw [if_neg h4] at h ⊢
              have hku : ∀ y : List Char, replaceChar '\n' ' ' ('u' :: 'l' :: 'l' :: y)
                  = 'u' :: 'l' :: 'l' :: replaceChar '\n' ' ' y := fun y => by
                rw [replNl_cons_of_ne _ _ (by decide), replNl_cons_of_ne _ _ (by decide),
                  replNl_cons_of_ne _ _ (by decide)]
              have hkr : ∀ y : List Char, replaceChar '\n' ' ' ('r' :: 'u' :: 'e' :: y)
                  = 'r' :: 'u' :: 'e' :: replaceChar '\n' ' ' y := fun y => by
                rw [replNl_cons_of_ne _ _ (by decide), replNl_cons_of_ne _ _ (by decide),
                  replNl_cons_of_ne _ _ (by decide)]
              have hkf : ∀ y : List Char,
                  replaceChar '\n' ' ' ('a' :: 'l' :: 's' :: 'e' :: y)
                  = 'a' :: 'l' :: 's' :: 'e' :: replaceChar '\n' ' ' y := fun y => by
                rw [replNl_cons_of_ne _ _ (by decide), replNl_cons_of_ne _ _ (by decide),
                  replNl_cons_of_ne _ _ (by decide), replNl_cons_of_ne _ _ (by decide)]
              split at h
              · rename_i x heq
                cases heq
                cases h
                rw [hku]
                rfl
              · rename_i x heq
                cases heq
                cases h
                rw [hkr]
                rfl
              · rename_i x heq
                cases heq
                cases h
                rw [hkf]
                rfl
              · rename_i hn1 hn2 hn3
                cases hit : parseIntToken (c :: rest) with
                | none => rw [hit] at h; cases h
                | some p =>
                  obtain ⟨n1, r1⟩ := p
                  rw [hit] at h
                  simp only [] at h
                  cases h
                  have hd := parseIntToken_head c rest _ _ hit
                  have hmapped := parseIntToken_replNl (c :: rest) _ _ hit
                  rw [replNl_cons_of_ne c rest hcn] at hmapped
                  split
                  · rename_i x heq
                    exfalso
                    have hcn2 : c = 'n' := by
                      have := congrArg (fun t => t.headI) heq
                      simpa using this
                    rcases hd with hd | hd
                    · rw [hcn2] at hd
                      exact absurd hd (by decide)
                    · rw [hcn2] at hd
                      exact absurd hd (by decide)
                  · rename_i x heq
                    exfalso
                    have hcn2 : c = 't' := by
                      have := congrArg (fun t => t.headI) heq
                      simpa using this
                    rcases hd with hd | hd
                    · rw [hcn2] at hd
                      exact absurd hd (by decide)
                    · rw [hcn2] at hd
                      exact absurd hd (by decide)
                  · rename_i x heq
                    exfalso
                    have hcn2 : c = 'f' := by
                      have := congrArg (fun t => t.headI) heq
                      simpa using this
                    rcases hd with hd | hd
                    · rw [hcn2] at hd
                      exact absurd hd (by decide)
                    · rw [hcn2] at hd
                      exact absurd hd (by decide)
                  · rw [hmapped]
    · intro l vs r h
      rw [parseArrayTail_succ] at h
      rw [parseArrayTail_succ]
      cases hv : parseValue fuel l with
      | none => rw [hv] at h; cases h
      | some p =>
        obtain ⟨v, r1⟩ := p
        rw [hv] at h
        rw [ihV l _ _ hv]
        simp only [] at h ⊢
        rw [skipWs_replNl]
        cases hsw : skipWs r1 with
        | nil => rw [hsw] at h; cases h
        | cons c r2 =>
          have hcn : ¬ c = '\n' := ne_nl_of_skipWs r1 c r2 hsw
          rw [hsw] at h
          rw [replNl_cons_of_ne c r2 hcn]
          simp only [] at h ⊢
          by_cases hc : c = ','
          · rw [if_pos hc] at h ⊢
            cases hat : parseArrayTail fuel r2 with
            | none => rw [hat] at h; cases h
            | some q =>
              obtain ⟨vs2, r3⟩ := q
              rw [hat] at h
              simp only [] at h
              cases h
              rw [ihA r2 _ _ hat]
          · rw [if_neg hc] at h ⊢
            by_cases hb : c = ']'
            · rw [if_pos hb] at h ⊢
              cases h
              rfl
            · rw [if_neg hb] at h ⊢
              cases h
    · intro l kvs r h
      rw [parseObjectTail_succ] at h
      rw [parseObjectTail_succ, skipWs_replNl]
      cases hsw : skipWs l with
      | nil => rw [hsw] at h; cases h
      | cons c r1 =>
        have hcn : ¬ c = '\n' := ne_nl_of_skipWs l c r1 hsw
        rw [hsw] at h
        rw [replNl_cons_of_ne c r1 hcn]
        simp only [] at h ⊢
        by_cases h1 : c = dquote
        · rw [if_pos h1] at h ⊢
          cases hsb : parseStringBody r1 with
          | none => rw [hsb] at h; cases h
          | some p =>
            obtain ⟨key, r2⟩ := p
            rw [hsb] at h
            rw [parseStringBody_replNl r1 _ _ hsb]
            simp only [] at h ⊢
            rw [skipWs_replNl]
            cases hsw2 : skipWs r2 with
            | nil => rw [hsw2] at h; cases h
            | cons c2 r3 =>
              have hc2 : ¬ c2 = '\n' := ne_nl_of_skipWs r2 c2 r3 hsw2
              rw [hsw2] at h
              rw [replNl_cons_of_ne c2 r3 hc2]
              simp only [] at h ⊢
              by_cases h2 : c2 = ':'
              · rw [if_pos h2] at h ⊢
                cases hv : parseValue fuel r3 with
                | none => rw [hv] at h; cases h
                | some q =>
                  obtain ⟨v, r4⟩ := q
                  rw [hv] at h
                  rw [ihV r3 _ _ hv]
                  simp only [] at h ⊢
                  rw [skipWs_replNl]
                  cases hsw3 : skipWs r4 with
                  | nil => rw [hsw3] at h; cases h
                  | cons c3 r5 =>
                    have hc3 : ¬ c3 = '\n' := ne_nl_of_skipWs r4 c3 r5 hsw3
                    rw [hsw3] at h
                    rw [replNl_cons_of_ne c3 r5 hc3]
                    simp only [] at h ⊢
                    by_cases h3 : c3 = ','
                    · rw [if_pos h3] at h ⊢
                      cases hob : parseObjectTail fuel r5 with
                      | none => rw [hob] at h; cases h
                      | some q2 =>
                        obtain ⟨kvs2, r6⟩ := q2
                        rw [hob] at h
                        simp only [] at h
                        cases h
                        rw [ihO r5 _ _ hob]
                    · rw [if_neg h3] at h ⊢
                      by_cases h4 : c3 = rbrace
                      · rw [if_pos h4] at h ⊢
                        cases h
                        rfl
                      · rw [if_neg h4] at h ⊢
                        cases h
              · rw [if_neg h2] at h ⊢
                cases h
        · rw [if_neg h1] at h ⊢
          cases h

/-- Helper: a successful top-level decode is insensitive to the
newline-to-space substitution of the input string. -/
theorem jsonLoads_replNl (l : List Char) (j : Json) (h : jsonLoads l = some j) :
    jsonLoads (replaceChar '\n' ' ' l) = some j := by
  unfold jsonLoads at h ⊢
  have hlen : (replaceChar '\n' ' ' l).length = l.length := List.length_map _ _
  rw [hlen]
  cases hp : parseValue (l.length + 1) l with
  | none => rw [hp] at h; cases h
  | some p =>
    obtain ⟨j2, rest⟩ := p
    rw [hp] at h
    simp only [] at h
    by_cases hsw : skipWs rest = []
    · rw [if_pos hsw] at h
      cases h
      rw [(parse_replNl (l.length + 1)).1 l _ _ hp]
      simp only []
      rw [if_pos (by rw [skipWs_replNl, hsw]; rfl)]
    · rw [if_neg hsw] at h
      cases h

/-- Helper: full computation of the cleanup of a fenced reply, multi-line
bodies included: it equals the newline-to-space image of the quote
substitution applied to the stripped body. -/
theorem cleanupAnswer_fenceWrap (body : List Char) :
    cleanupAnswer (fenceWrap body)
      = replaceChar '\n' ' ' (replaceChar squote dquote (pyStrip body)) := by
  unfold cleanupAnswer
  simp only []
  rw [fenceWrap_eq, if_pos (isPrefixOf_append fenceJson _), dropThroughNewline_fence]
  by_cases hB : lstrip body = []
  · have hl : lstrip (body ++ '\n' :: fenceClose) = fenceClose := by
      rw [lstrip_append_nil body _ hB]
      decide
    have hs : pyStrip (body ++ '\n' :: fenceClose) = fenceClose := by
      unfold pyStrip
      rw [hl]
      decide
    rw [hs, if_pos (by decide : fenceClose.isSuffixOf fenceClose = true)]
    have hps : pyStrip body = [] := by
      unfold pyStrip
      rw [hB]
      rfl
    rw [hps]
    decide
  · have hl : lstrip (body ++ '\n' :: fenceClose) = lstrip body ++ '\n' :: fenceClose :=
      lstrip_append_pos body _ hB
    have hshape : lstrip body ++ '\n' :: fenceClose
        = (lstrip body ++ '\n' :: [btick, btick]) ++ [btick] := by
      rw [fenceClose_eq]
      simp
    have hs : pyStrip (body ++ '\n' :: fenceClose) = lstrip body ++ '\n' :: fenceClose := by
      unfold pyStrip
      rw [hl, hshape, rstrip_append_last _ btick (by decide), ← hshape]
    have hsuf : fenceClose.isSuffixOf (lstrip body ++ '\n' :: fenceClose) = true := by
      have hshape2 : lstrip body ++ '\n' :: fenceClose
          = (lstrip body ++ ['\n']) ++ fenceClose := by simp
      rw [hshape2]
      exact isSuffixOf_append fenceClose _
    rw [hs, if_pos hsuf]
    have hdrop : dropLast3 (lstrip body ++ '\n' :: fenceClose) = lstrip body ++ ['\n'] := by
      have hshape3 : lstrip body ++ '\n' :: fenceClose
          = (lstrip body ++ ['\n']) ++ [btick, btick, btick] := by
        rw [fenceClose_eq]
        simp
      rw [hshape3, dropLast3_append3]
    rw [hdrop]
    have hrepl : replaceChar '\n' ' ' (lstrip body ++ ['\n'])
        = replaceChar '\n' ' ' (lstrip body) ++ [' '] := by
      unfold replaceChar
      rw [List.map_append]
      rw [show List.map (fun c => if c = '\n' then ' ' else c) ['\n'] = [' '] from by decide]
    rw [hrepl]
    have hq2 : replaceChar squote dquote (replaceChar '\n' ' ' (lstrip body) ++ [' '])
        = replaceChar squote dquote (replaceChar '\n' ' ' (lstrip body)) ++ [' '] := by
      unfold replaceChar
      rw [List.map_append]
      rw [show List.map (fun c => if c = squote then dquote else c) [' '] = [' '] from by decide]
    rw [hq2, pyStrip_append_space _ ' ' (by decide), pyStrip_replaceChar, pyStrip_replNl,
      replQ_replNl_comm]
    unfold pyStrip
    rw [lstrip_idem]

/-- Helper: full computation of the cleanup of an unfenced reply: the quote
substitution applied to the stripped reply. -/
theorem cleanupAnswer_unfenced (body : List Char)
    (hnf : fenceJson.isPrefixOf body = false) :
    cleanupAnswer body = replaceChar squote dquote (pyStrip body) := by
  unfold cleanupAnswer
  simp only []
  rw [if_neg (by rw [hnf]; exact Bool.false_ne_true), pyStrip_replaceChar]

/-- Counterexample to C1 as stated: a well-formed fenced reply carrying a
trailing comma does not decode to any JSON object after the cleanup — the
cleanup never removes the trailing comma and strict json.loads rejects it —
and its unfenced equivalent fails identically, so no common decoded object
exists. -/
theorem claim1_counterexample :
    trailingCommaFenced = fenceWrap trailingCommaBody
    ∧ jsonLoads (cleanupAnswer trailingCommaFenced) = none
    ∧ jsonLoads (cleanupAnswer trailingCommaBody) = none
    ∧ jsonLoads trailingCommaBody = none :=
  ⟨rfl, rfl, rfl, rfl⟩

/-- C1 as amended: for every fenced reply (multi-line bodies included)
whose body does not itself begin with a ```json fence, the cleanup of the
fenced reply is exactly the newline-to-space image of the cleanup of the
unfenced equivalent, and whenever the unfenced equivalent decodes to a JSON
object, decoding after the cleanup of the fenced reply yields that same
object — newline-to-space is decode-neutral for valid JSON.  Only
trailing-comma tolerance is dropped from the original claim: the cleanup
does not remove trailing commas, so such a reply decodes to no object at
all, exactly as its unfenced equivalent. -/
theorem claim1_amended (body : List Char)
    (hnf : fenceJson.isPrefixOf body = false) :
    cleanupAnswer (fenceWrap body) = replaceChar '\n' ' ' (cleanupAnswer body)
    ∧ ∀ j : Json, jsonLoads (cleanupAnswer body) = some j →
        jsonLoads (cleanupAnswer (fenceWrap body)) = some j := by
  have hmain : cleanupAnswer (fenceWrap body)
      = replaceChar '\n' ' ' (cleanupAnswer body) := by
    rw [cleanupAnswer_fenceWrap body, cleanupAnswer_unfenced body hnf]
  refine ⟨hmain, fun j hj => ?_⟩
  rw [hmain]
  exact jsonLoads_replNl _ j hj

/-- Witness for the amended C1 at a concrete multi-line JSON body: the
fenced reply decodes to the same two-key object as the unfenced
equivalent. -/
theorem claim1_witness :
    cleanupAnswer (fenceWrap multilineBody)
      = replaceChar '\n' ' ' (cleanupAnswer multilineBody)
    ∧ jsonLoads (cleanupAnswer (fenceWrap multilineBody))
      = some (Json.jobj [(['a'], Json.jint 1), (['b'], Json.jint 2)]) :=
  ⟨(claim1_amended multilineBody (by decide)).1,
   (claim1_amended multilineBody (by decide)).2
     (Json.jobj [(['a'], Json.jint 1), (['b'], Json.jint 2)]) rfl⟩

end RagDemo
